import Mathlib

/-!
Verification of the data-transform pipeline of the Data Playground app
(src/app.py).  The app is a Streamlit UI around a pandas dataframe; this
file shallowly embeds the dataframe operations the app performs:

* a `Table` is an ordered list of column names together with rows of cells;
* a cell (`Value`) is a rational number, a string, a boolean, or the
  missing value (pandas `NaN` / `None` is modelled by `Value.null`);
* `Table.drop` models `DataFrame.drop(columns=...)` (which raises a
  `KeyError` when a label is absent, the pandas default `errors="raise"`),
  and `dropStage` models the `if columns_to_drop:` guard around it;
* `Table.dropna` models `DataFrame.dropna()` (drop a row iff it has a
  missing value in any column);
* `Table.fillna` models `DataFrame.fillna(0)` (every missing cell becomes
  the number 0, whatever the column);
* `Table.rangeFilter` models `df[(df[c] >= lo) & (df[c] <= hi)]`; as in
  pandas, a comparison against the missing value is false, so rows whose
  cell is missing are excluded whatever the bounds;
* `Table.colMin` / `Table.colMax` model `Series.min()` / `Series.max()`
  (missing values are skipped);
* `Table.uniqueVals` models `Series.unique()` (first-occurrence order,
  missing value included) and `Table.setFilter` models
  `df[df[c].isin(selected)]` (pandas `isin` matches the missing value);
* `filterStage` models the "Filter Data" block with its `"None"` sentinel;
* `seriesQuantile` models `Series.quantile(q)` (linear interpolation over
  the sorted non-missing values, `NaN`, i.e. `none`, on an empty series);
* `sampleVar` / `stdMetricText` model the `Std Dev` metric: pandas
  `Series.std()` uses `ddof=1` and yields `NaN` on fewer than two
  observations, and `f"{nan:.2f}"` renders as the string `"nan"`;
* `chartSection` models the `try/except` around the plotly calls, with the
  external chart builder abstracted as a function that may fail.
-/

/-- A cell of a dataframe: numeric, text, boolean, or missing (`NaN`). -/
inductive Value
  | num (q : ℚ)
  | str (s : String)
  | bool (b : Bool)
  | null
deriving DecidableEq

def Value.isNull : Value → Bool
  | Value.null => true
  | _ => false

def Value.isNum : Value → Bool
  | Value.num _ => true
  | _ => false

/-- Comparison `v >= x` as pandas evaluates it on a numeric column:
false on the missing value. -/
def Value.geNum : Value → ℚ → Bool
  | Value.num q, x => decide (x ≤ q)
  | _, _ => false

/-- Comparison `v <= x` as pandas evaluates it on a numeric column:
false on the missing value. -/
def Value.leNum : Value → ℚ → Bool
  | Value.num q, x => decide (q ≤ x)
  | _, _ => false

/-- A dataframe: ordered column names and rows of cells. -/
structure Table where
  cols : List String
  rows : List (List Value)
deriving DecidableEq

/-- The cells of column `c`, in row order (missing when the row is too
short, which does not happen on well-formed frames). -/
def Table.colVals (t : Table) (c : String) : List Value :=
  t.rows.map (fun r => r.getD (t.cols.indexOf c) Value.null)

/-- The numeric observations of a list of cells, missing values skipped. -/
def numsOf (vs : List Value) : List ℚ :=
  vs.filterMap (fun v => match v with
    | Value.num q => some q
    | _ => none)

/-- `DataFrame.drop(columns=toDrop)`: removes the named columns; with the
pandas default `errors="raise"`, a label not present raises `KeyError`. -/
def Table.drop (t : Table) (toDrop : List String) : Except String Table :=
  if toDrop.all (fun c => decide (c ∈ t.cols)) then
    Except.ok
      ⟨t.cols.filter (fun c => decide (c ∉ toDrop)),
       t.rows.map (fun r =>
         ((t.cols.zip r).filter (fun p => decide (p.1 ∉ toDrop))).map Prod.snd)⟩
  else
    Except.error ("KeyError: not found in axis")

/-- The drop-columns stage: `if columns_to_drop: df_clean.drop(...)`. -/
def dropStage (t : Table) (toDrop : List String) : Except String Table :=
  if toDrop.isEmpty then Except.ok t else t.drop toDrop

/-- `DataFrame.dropna()`: keep exactly the rows with no missing cell. -/
def Table.dropna (t : Table) : Table :=
  ⟨t.cols, t.rows.filter (fun r => r.all (fun v => !(Value.isNull v)))⟩

/-- `DataFrame.fillna(0)`: replace every missing cell by the number 0. -/
def Table.fillna (t : Table) : Table :=
  ⟨t.cols, t.rows.map (fun r => r.map (fun v =>
    if v = Value.null then Value.num 0 else v))⟩

/-- `df_clean[(df_clean[c] >= lo) & (df_clean[c] <= hi)]`. -/
def Table.rangeFilter (t : Table) (c : String) (lo hi : ℚ) : Table :=
  ⟨t.cols,
   t.rows.filter (fun r =>
     Value.geNum (r.getD (t.cols.indexOf c) Value.null) lo &&
     Value.leNum (r.getD (t.cols.indexOf c) Value.null) hi)⟩

/-- `Series.min()` of column `c`: minimum of the numeric observations,
missing values skipped; `none` when there is no observation. -/
def Table.colMin (t : Table) (c : String) : Option ℚ :=
  match numsOf (t.colVals c) with
  | [] => none
  | x :: xs => some (xs.foldl min x)

/-- `Series.max()` of column `c`: maximum of the numeric observations,
missing values skipped; `none` when there is no observation. -/
def Table.colMax (t : Table) (c : String) : Option ℚ :=
  match numsOf (t.colVals c) with
  | [] => none
  | x :: xs => some (xs.foldl max x)

/-- `Series.unique()` of column `c`: the distinct cell values in order of
first occurrence, the missing value included. -/
def Table.uniqueVals (t : Table) (c : String) : List Value :=
  (t.colVals c).foldl (fun acc v => if v ∈ acc then acc else acc ++ [v]) []

/-- `df_clean[df_clean[c].isin(sel)]`; pandas `isin` also matches the
missing value, so plain cell equality is the membership test. -/
def Table.setFilter (t : Table) (c : String) (sel : List Value) : Table :=
  ⟨t.cols,
   t.rows.filter (fun r => decide ((r.getD (t.cols.indexOf c) Value.null) ∈ sel))⟩

/-- `pd.api.types.is_numeric_dtype(df_clean[c])`, on the cell model: every
cell of the column is a number or missing. -/
def Table.isNumericCol (t : Table) (c : String) : Bool :=
  (t.colVals c).all (fun v => Value.isNum v || Value.isNull v)

/-- The "Filter Data" block: `filter_col` is the string chosen in the
selectbox over `["None"] + columns`; when it is not the sentinel
`"None"`, a numeric column gets the range filter and any other column the
set-membership filter. -/
def filterStage (t : Table) (filter_col : String) (rng : ℚ × ℚ)
    (sel : List Value) : Table :=
  if filter_col ≠ "None" then
    (if t.isNumericCol filter_col then t.rangeFilter filter_col rng.1 rng.2
     else t.setFilter filter_col sel)
  else t

/-- Claim C1: for every source table and every set of column names contained
in the table columns, the drop-columns stage succeeds and yields a table
whose column set is the source column set minus the dropped set, with the
row count unchanged. -/
theorem dropStage_spec (t : Table) (C : List String) (h : ∀ c ∈ C, c ∈ t.cols) :
    (dropStage t C).isOk = true ∧
    ∀ t2, dropStage t C = Except.ok t2 →
      ((∀ s, s ∈ t2.cols ↔ (s ∈ t.cols ∧ s ∉ C)) ∧
       t2.rows.length = t.rows.length) := by
  have hall : C.all (fun c => decide (c ∈ t.cols)) = true := by
    simp only [List.all_eq_true, decide_eq_true_eq]
    exact h
  by_cases hC : C.isEmpty
  · have hnil : C = [] := List.isEmpty_iff.mp hC
    subst hnil
    refine ⟨rfl, ?_⟩
    intro t2 ht2
    simp only [dropStage, List.isEmpty_nil, if_true, Except.ok.injEq] at ht2
    subst ht2
    exact ⟨fun s => by simp, rfl⟩
  · refine ⟨?_, ?_⟩
    · simp [dropStage, hC, Table.drop, hall, Except.isOk, Except.toBool]
    · intro t2 ht2
      simp only [dropStage, hC, if_neg, Table.drop, hall, if_true,
        Bool.not_eq_true, if_false, Except.ok.injEq] at ht2
      subst ht2
      constructor
      · intro s
        simp [List.mem_filter]
      · simp

/-- Witness for C1 on a concrete two-column table, dropping one column. -/
theorem dropStage_spec_witness :
    ("a" ∈ (Table.mk ["a"] [[Value.num 1]]).cols ↔
      ("a" ∈ (Table.mk ["a", "b"] [[Value.num 1, Value.str "x"]]).cols ∧
        "a" ∉ (["b"] : List String))) ∧
    (Table.mk ["a"] [[Value.num 1]]).rows.length =
      (Table.mk ["a", "b"] [[Value.num 1, Value.str "x"]]).rows.length := by
  have h := dropStage_spec (Table.mk ["a", "b"] [[Value.num 1, Value.str "x"]])
    ["b"] (by decide)
  exact ⟨(h.2 (Table.mk ["a"] [[Value.num 1]]) (by rfl)).1 "a",
         (h.2 (Table.mk ["a"] [[Value.num 1]]) (by rfl)).2⟩

/-- Claim C2: the `drop_rows` policy (`DataFrame.dropna`) leaves no row with
a missing value in any remaining column, never increases the row count, and
keeps the column set. -/
theorem dropna_spec (t : Table) :
    ((Table.dropna t).rows.all (fun r => r.all (fun v => !(Value.isNull v))) = true) ∧
    (Table.dropna t).rows.length ≤ t.rows.length ∧
    (Table.dropna t).cols = t.cols := by
  refine ⟨?_, List.length_filter_le _ _, rfl⟩
  simp only [Table.dropna, List.all_eq_true]
  intro r hr
  simpa using (List.mem_filter.mp hr).2

/-- Claim C3: the `fill_zero` policy (`DataFrame.fillna(0)`) keeps the row
count, leaves no missing value, and rewrites exactly the missing cells to
the number 0 (whatever the column), leaving every other cell unchanged. -/
theorem fillna_spec (t : Table) :
    (Table.fillna t).rows.length = t.rows.length ∧
    ((Table.fillna t).rows.all (fun r => r.all (fun v => !(Value.isNull v))) = true) ∧
    ∀ i j : ℕ, i < t.rows.length → j < (t.rows.getD i []).length →
      ((Table.fillna t).rows.getD i []).getD j Value.null =
        (if (t.rows.getD i []).getD j Value.null = Value.null then Value.num 0
         else (t.rows.getD i []).getD j Value.null) := by
  refine ⟨by simp [Table.fillna], ?_, ?_⟩
  · simp only [Table.fillna, List.all_eq_true]
    intro r hr
    obtain ⟨r0, hr0, rfl⟩ := List.mem_map.mp hr
    intro v hv
    obtain ⟨v0, hv0, rfl⟩ := List.mem_map.mp hv
    by_cases h0 : v0 = Value.null
    · subst h0
      simp [Value.isNull]
    · cases v0 <;> simp_all [Value.isNull]
  · intro i j hi hj
    have e1 : t.rows.getD i [] = t.rows[i] := List.getD_eq_getElem _ _ hi
    rw [e1] at hj ⊢
    simp only [Table.fillna]
    have hi2 : i < (t.rows.map (fun r => r.map (fun v =>
        if v = Value.null then Value.num 0 else v))).length := by
      simpa using hi
    rw [List.getD_eq_getElem _ _ hi2, List.getElem_map]
    have hj2 : j < ((t.rows[i]).map (fun v =>
        if v = Value.null then Value.num 0 else v)).length := by
      simpa using hj
    rw [List.getD_eq_getElem _ _ hj2, List.getElem_map,
      List.getD_eq_getElem _ _ hj]

/-- Witness for C3 on a non-numeric column: the missing cell of a text
column becomes the number 0. -/
theorem fillna_spec_witness :
    ((Table.fillna (Table.mk ["city"] [[Value.null], [Value.str "A"]])).rows.getD 0 []).getD 0
        Value.null = Value.num 0 := by
  have h := (fillna_spec (Table.mk ["city"] [[Value.null], [Value.str "A"]])).2.2
    0 0 (by decide) (by decide)
  simpa using h

/-- Claim C6, as the code actually behaves: handing the drop stage a column
name that is not present makes `DataFrame.drop` raise a `KeyError` (the
pandas default `errors="raise"`), instead of the safe no-op the spec
requires. -/
theorem dropStage_missing_raises :
    dropStage (Table.mk ["a"] [[Value.num 1]]) ["b"] =
      Except.error ("KeyError: not found in axis") := by rfl

lemma mem_foldl_unique (vs : List Value) (acc : List Value) (v : Value)
    (h : v ∈ acc ∨ v ∈ vs) :
    v ∈ vs.foldl (fun acc v => if v ∈ acc then acc else acc ++ [v]) acc := by
  induction vs generalizing acc with
  | nil => simpa using h.resolve_right (by simp)
  | cons w ws ih =>
    simp only [List.foldl_cons]
    apply ih
    rcases h with hacc | hv
    · left
      by_cases hw : w ∈ acc
      · simpa [hw] using hacc
      · simp only [hw, if_false, List.mem_append]
        exact Or.inl hacc
    · rcases List.mem_cons.mp hv with rfl | hvs
      · left
        by_cases hw : v ∈ acc
        · simpa [hw] using hw
        · simp [hw]
      · exact Or.inr hvs

lemma mem_uniqueVals (t : Table) (c : String) (v : Value)
    (h : v ∈ t.colVals c) : v ∈ t.uniqueVals c :=
  mem_foldl_unique _ _ _ (Or.inr h)

/-- Claim C5: the set-membership filter with the full distinct-value set of
the column keeps the table unchanged (pandas `isin` matches the missing
value, which `unique()` also reports), and with the empty selection it
yields a table with the same columns and zero rows. -/
theorem setFilter_spec (t : Table) (c : String) :
    Table.setFilter t c (Table.uniqueVals t c) = t ∧
    (Table.setFilter t c []).rows = [] ∧
    (Table.setFilter t c []).cols = t.cols := by
  refine ⟨?_, by simp [Table.setFilter], rfl⟩
  have hfull : t.rows.filter
      (fun r => decide ((r.getD (t.cols.indexOf c) Value.null) ∈ t.uniqueVals c)) =
      t.rows := by
    rw [List.filter_eq_self]
    intro r hr
    simp only [decide_eq_true_eq]
    exact mem_uniqueVals t c _ (List.mem_map.mpr ⟨r, hr, rfl⟩)
  simp only [Table.setFilter]
  rw [hfull]

/-- Claim C10: whenever the filter-column selection is the string `"None"`,
the filter stage passes the table through unchanged, even when the table
really has a column named `"None"`; consequently a selection that does
change the table is never the string `"None"`. -/
theorem filterStage_none (t : Table) (rng : ℚ × ℚ) (sel : List Value)
    (h : "None" ∈ t.cols) :
    filterStage t "None" rng sel = t ∧
    ∀ s, filterStage t s rng sel ≠ t → s ≠ "None" := by
  have h1 : filterStage t "None" rng sel = t := by simp [filterStage]
  refine ⟨h1, ?_⟩
  intro s hs
  rintro rfl
  exact hs h1

/-- Witness for C10 on a table whose only column is literally named
`"None"`. -/
theorem filterStage_none_witness :
    filterStage (Table.mk ["None"] [[Value.str "x"]]) "None" (0, 0) [] =
      Table.mk ["None"] [[Value.str "x"]] :=
  (filterStage_none (Table.mk ["None"] [[Value.str "x"]]) (0, 0) [] (by decide)).1

lemma foldl_min_le_init (xs : List ℚ) (x : ℚ) : xs.foldl min x ≤ x := by
  induction xs generalizing x with
  | nil => exact le_refl x
  | cons z zs ih =>
    simp only [List.foldl_cons]
    exact le_trans (ih (min x z)) (min_le_left _ _)

lemma foldl_min_le (xs : List ℚ) (x y : ℚ) (h : y ∈ xs) :
    xs.foldl min x ≤ y := by
  induction xs generalizing x with
  | nil => cases h
  | cons z zs ih =>
    simp only [List.foldl_cons]
    rcases List.mem_cons.mp h with rfl | hzs
    · exact le_trans (foldl_min_le_init zs (min x y)) (min_le_right _ _)
    · exact ih (min x z) hzs

lemma le_foldl_max_init (xs : List ℚ) (x : ℚ) : x ≤ xs.foldl max x := by
  induction xs generalizing x with
  | nil => exact le_refl x
  | cons z zs ih =>
    simp only [List.foldl_cons]
    exact le_trans (le_max_left _ _) (ih (max x z))

lemma le_foldl_max (xs : List ℚ) (x y : ℚ) (h : y ∈ xs) :
    y ≤ xs.foldl max x := by
  induction xs generalizing x with
  | nil => cases h
  | cons z zs ih =>
    simp only [List.foldl_cons]
    rcases List.mem_cons.mp h with rfl | hzs
    · exact le_trans (le_max_right _ _) (le_foldl_max_init zs (max x y))
    · exact ih (max x z) hzs

lemma colMin_le (t : Table) (c : String) (mn : ℚ) (hmn : t.colMin c = some mn)
    (q : ℚ) (hq : q ∈ numsOf (t.colVals c)) : mn ≤ q := by
  unfold Table.colMin at hmn
  cases hnums : numsOf (t.colVals c) with
  | nil => rw [hnums] at hmn; cases hmn
  | cons x xs =>
    rw [hnums] at hmn hq
    have hfold : xs.foldl min x = mn := by
      simpa using hmn
    rw [← hfold]
    rcases List.mem_cons.mp hq with rfl | hxs
    · exact foldl_min_le_init xs q
    · exact foldl_min_le xs x q hxs

lemma le_colMax (t : Table) (c : String) (mx : ℚ) (hmx : t.colMax c = some mx)
    (q : ℚ) (hq : q ∈ numsOf (t.colVals c)) : q ≤ mx := by
  unfold Table.colMax at hmx
  cases hnums : numsOf (t.colVals c) with
  | nil => rw [hnums] at hmx; cases hmx
  | cons x xs =>
    rw [hnums] at hmx hq
    have hfold : xs.foldl max x = mx := by
      simpa using hmx
    rw [← hfold]
    rcases List.mem_cons.mp hq with rfl | hxs
    · exact le_foldl_max_init xs q
    · exact le_foldl_max xs x q hxs

/-- Claim C4, counterexample to the claim as stated: on a numeric column
holding the number 1 and a missing value, the observed min and max are both
1, yet the range filter at the full range `[1, 1]` drops the missing-value
row (pandas comparisons against `NaN` are false), so it is not the
identity. -/
theorem rangeFilter_full_range_cex :
    ((Table.colVals (Table.mk ["a"] [[Value.num 1], [Value.null]]) "a").all
      (fun v => Value.isNum v || Value.isNull v) = true) ∧
    Table.colMin (Table.mk ["a"] [[Value.num 1], [Value.null]]) "a" = some 1 ∧
    Table.colMax (Table.mk ["a"] [[Value.num 1], [Value.null]]) "a" = some 1 ∧
    Table.rangeFilter (Table.mk ["a"] [[Value.num 1], [Value.null]]) "a" 1 1 ≠
      Table.mk ["a"] [[Value.num 1], [Value.null]] := by
  decide

/-- Claim C4 as amended: on a filter column with no missing value, the range
filter at the observed `[min, max]` is the identity, and with the lower
bound kept at the observed min and any upper bound `u` it keeps exactly the
rows whose value is at most `u` (both ends inclusive), i.e. it excludes
exactly the rows whose value exceeds `u`. -/
theorem rangeFilter_spec (t : Table) (c : String) (mn mx : ℚ)
    (hnum : (t.colVals c).all Value.isNum = true)
    (hmin : t.colMin c = some mn) (hmax : t.colMax c = some mx) :
    t.rangeFilter c mn mx = t ∧
    ∀ u : ℚ, (t.rangeFilter c mn u).rows =
      t.rows.filter (fun r =>
        Value.leNum (r.getD (t.cols.indexOf c) Value.null) u) := by
  have key : ∀ r ∈ t.rows, ∃ q : ℚ,
      r.getD (t.cols.indexOf c) Value.null = Value.num q ∧ mn ≤ q ∧ q ≤ mx := by
    intro r hr
    have hcv : (r.getD (t.cols.indexOf c) Value.null) ∈ t.colVals c :=
      List.mem_map.mpr ⟨r, hr, rfl⟩
    have hisnum := List.all_eq_true.mp hnum _ hcv
    cases hv : r.getD (t.cols.indexOf c) Value.null with
    | num q =>
      rw [hv] at hcv
      have hqmem : q ∈ numsOf (t.colVals c) :=
        List.mem_filterMap.mpr ⟨Value.num q, hcv, rfl⟩
      exact ⟨q, rfl, colMin_le t c mn hmin q hqmem, le_colMax t c mx hmax q hqmem⟩
    | str s => rw [hv] at hisnum; simp [Value.isNum] at hisnum
    | bool b => rw [hv] at hisnum; simp [Value.isNum] at hisnum
    | null => rw [hv] at hisnum; simp [Value.isNum] at hisnum
  constructor
  · have hfull : t.rows.filter (fun r =>
        Value.geNum (r.getD (t.cols.indexOf c) Value.null) mn &&
        Value.leNum (r.getD (t.cols.indexOf c) Value.null) mx) = t.rows := by
      rw [List.filter_eq_self]
      intro r hr
      obtain ⟨q, hq, h1, h2⟩ := key r hr
      rw [hq]
      simp [Value.geNum, Value.leNum, h1, h2]
    simp only [Table.rangeFilter]
    rw [hfull]
  · intro u
    simp only [Table.rangeFilter]
    apply List.filter_congr
    intro r hr
    obtain ⟨q, hq, h1, h2⟩ := key r hr
    rw [hq]
    simp [Value.geNum, Value.leNum, h1]

/-- Witness for the amended C4 on a two-row numeric column: the full-range
filter keeps the table, and upper bound 1 keeps exactly the first row. -/
theorem rangeFilter_spec_witness :
    Table.rangeFilter (Table.mk ["a"] [[Value.num 1], [Value.num 3]]) "a" 1 3 =
      Table.mk ["a"] [[Value.num 1], [Value.num 3]] ∧
    (Table.rangeFilter (Table.mk ["a"] [[Value.num 1], [Value.num 3]]) "a" 1 1).rows =
      [[Value.num 1]] := by
  have h := rangeFilter_spec (Table.mk ["a"] [[Value.num 1], [Value.num 3]]) "a" 1 3
    (by decide) (by with_unfolding_all decide) (by with_unfolding_all decide)
  refine ⟨h.1, ?_⟩
  rw [h.2 1]
  with_unfolding_all decide

/-- The non-missing observations of a cell list, sorted ascending; this is
the data `Series.quantile` interpolates over. -/
def sortedNums (col : List Value) : List ℚ :=
  List.insertionSort (fun a b => a ≤ b) (numsOf col)

/-- Linear interpolation at fractional position `h` into the sorted list
`ys`, as `Series.quantile` computes it: with `i = floor h`, the value is
`ys[i] + (h - i) * (ys[i+1] - ys[i])` (and just `ys[i]` at the top end,
where `h - i = 0`). -/
def interpolate (ys : List ℚ) (h : ℚ) : ℚ :=
  ys.getD (Rat.floor h).toNat 0 +
    (h - ((Rat.floor h).toNat : ℚ)) *
      (ys.getD ((Rat.floor h).toNat + 1) (ys.getD (Rat.floor h).toNat 0) -
       ys.getD (Rat.floor h).toNat 0)

/-- `Series.quantile(q)` with the default linear interpolation: missing
values are skipped, and an empty series yields `NaN` (here `none`). -/
def seriesQuantile (col : List Value) (q : ℚ) : Option ℚ :=
  if (sortedNums col).isEmpty then none
  else some (interpolate (sortedNums col)
    (q * (((sortedNums col).length : ℚ) - 1)))

/-- The percentile the Statistics tab computes:
`df_clean[selected_col_stat].quantile(percentile / 100)`. -/
def analyzerPercentile (t : Table) (c : String) (p : ℕ) : Option ℚ :=
  seriesQuantile (t.colVals c) ((p : ℚ) / 100)

lemma ratFloor_eq (q : ℚ) : Rat.floor q = ⌊q⌋ := rfl

lemma toNat_floor_cast (a : ℚ) (ha : 0 ≤ a) :
    (((Rat.floor a).toNat : ℚ)) = ((⌊a⌋ : ℤ) : ℚ) := by
  rw [ratFloor_eq]
  exact_mod_cast Int.toNat_of_nonneg (Int.floor_nonneg.mpr ha)

lemma toNat_floor_le (a : ℚ) (ha : 0 ≤ a) : (((Rat.floor a).toNat : ℚ)) ≤ a := by
  rw [toNat_floor_cast a ha]
  exact Int.floor_le a

lemma lt_toNat_floor_add_one (a : ℚ) (ha : 0 ≤ a) :
    a < (((Rat.floor a).toNat : ℚ)) + 1 := by
  rw [toNat_floor_cast a ha]
  exact Int.lt_floor_add_one a

lemma toNat_floor_lt_length (ys : List ℚ) (b : ℚ)
    (hb : b ≤ (ys.length : ℚ) - 1) (hn : 1 ≤ ys.length) :
    (Rat.floor b).toNat < ys.length := by
  have h1 : Rat.floor b ≤ (ys.length : ℤ) - 1 := by
    rw [ratFloor_eq]
    have h2 := Int.floor_mono hb
    rwa [show ((ys.length : ℚ) - 1) = (((ys.length : ℤ) - 1 : ℤ) : ℚ) by
      push_cast
      ring, Int.floor_intCast] at h2
  omega

lemma sorted_getD_le (ys : List ℚ) (hs : List.Sorted (· ≤ ·) ys) (i j : ℕ)
    (hij : i ≤ j) (hj : j < ys.length) : ys.getD i 0 ≤ ys.getD j 0 := by
  have hi : i < ys.length := Nat.lt_of_le_of_lt hij hj
  rw [List.getD_eq_getElem _ _ hi, List.getD_eq_getElem _ _ hj]
  rcases Nat.eq_or_lt_of_le hij with rfl | hlt
  · exact le_refl _
  · have := List.pairwise_iff_get.mp hs ⟨i, hi⟩ ⟨j, hj⟩ hlt
    simpa [List.get_eq_getElem] using this

lemma getD_succ_ge (ys : List ℚ) (hs : List.Sorted (· ≤ ·) ys) (i : ℕ)
    (hi : i < ys.length) :
    ys.getD i 0 ≤ ys.getD (i + 1) (ys.getD i 0) := by
  by_cases h : i + 1 < ys.length
  · rw [List.getD_eq_getElem _ _ h]
    rw [List.getD_eq_getElem _ _ hi]
    have := List.pairwise_iff_get.mp hs ⟨i, hi⟩ ⟨i + 1, h⟩ (by simp)
    simpa [List.get_eq_getElem] using this
  · push_neg at h
    rw [List.getD_eq_default _ _ h]

lemma interp_core (ys : List ℚ) (hs : List.Sorted (· ≤ ·) ys) (a b : ℚ)
    (i j : ℕ)
    (hia2 : a < (i : ℚ) + 1) (hjb : (j : ℚ) ≤ b) (hab : a ≤ b)
    (hia : (i : ℚ) ≤ a)
    (hij : i ≤ j) (hjn : j < ys.length) :
    ys.getD i 0 + (a - (i : ℚ)) * (ys.getD (i + 1) (ys.getD i 0) - ys.getD i 0) ≤
    ys.getD j 0 + (b - (j : ℚ)) * (ys.getD (j + 1) (ys.getD j 0) - ys.getD j 0) := by
  have hin : i < ys.length := Nat.lt_of_le_of_lt hij hjn
  have e1 : ys.getD i 0 ≤ ys.getD (i + 1) (ys.getD i 0) := getD_succ_ge ys hs i hin
  have e2 : ys.getD j 0 ≤ ys.getD (j + 1) (ys.getD j 0) := getD_succ_ge ys hs j hjn
  rcases Nat.eq_or_lt_of_le hij with rfl | hlt
  · have h1 : 0 ≤ ys.getD (i + 1) (ys.getD i 0) - ys.getD i 0 := sub_nonneg.mpr e1
    nlinarith [h1]
  · have hi1n : i + 1 < ys.length := Nat.lt_of_le_of_lt hlt hjn
    have ehi1 : ys.getD (i + 1) (ys.getD i 0) = ys.getD (i + 1) 0 := by
      rw [List.getD_eq_getElem _ _ hi1n, List.getD_eq_getElem _ _ hi1n]
    have s1 : ys.getD i 0 + (a - (i : ℚ)) *
        (ys.getD (i + 1) (ys.getD i 0) - ys.getD i 0) ≤
        ys.getD (i + 1) (ys.getD i 0) := by
      have hco : a - (i : ℚ) ≤ 1 := by linarith
      have hco0 : 0 ≤ a - (i : ℚ) := by linarith
      nlinarith [sub_nonneg.mpr e1]
    have s2 : ys.getD (i + 1) 0 ≤ ys.getD j 0 :=
      sorted_getD_le ys hs (i + 1) j hlt hjn
    have s3 : ys.getD j 0 ≤ ys.getD j 0 + (b - (j : ℚ)) *
        (ys.getD (j + 1) (ys.getD j 0) - ys.getD j 0) := by
      have hb0 : 0 ≤ b - (j : ℚ) := by linarith
      nlinarith [sub_nonneg.mpr e2]
    rw [ehi1] at s1 ⊢
    linarith [s1, s2, s3]

lemma interpolate_mono (ys : List ℚ) (hs : List.Sorted (· ≤ ·) ys) (a b : ℚ)
    (ha : 0 ≤ a) (hab : a ≤ b) (hb : b ≤ (ys.length : ℚ) - 1) :
    interpolate ys a ≤ interpolate ys b := by
  have hb0 : (0 : ℚ) ≤ b := ha.trans hab
  have hn : 1 ≤ ys.length := by
    by_contra hc
    push_neg at hc
    have h0 : ys.length = 0 := Nat.lt_one_iff.mp hc
    rw [h0] at hb
    norm_num at hb
    linarith
  have hij : (Rat.floor a).toNat ≤ (Rat.floor b).toNat := by
    apply Int.toNat_le_toNat
    rw [ratFloor_eq, ratFloor_eq]
    exact Int.floor_mono hab
  exact interp_core ys hs a b (Rat.floor a).toNat (Rat.floor b).toNat
    (lt_toNat_floor_add_one a ha) (toNat_floor_le b hb0) hab
    (toNat_floor_le a ha) hij (toNat_floor_lt_length ys b hb hn)

lemma sorted_sortedNums (col : List Value) :
    List.Sorted (· ≤ ·) (sortedNums col) :=
  List.sorted_insertionSort _ _

/-- Claim C7: the percentile query is monotone in the percentile: for
integer percentiles `p1 < p2 ≤ 100` on the same column, whenever both
quantiles are defined (at least one observation), the `p1` percentile is at
most the `p2` percentile. -/
theorem percentile_monotone (t : Table) (c : String) (p1 p2 : ℕ) (v1 v2 : ℚ)
    (hp12 : p1 < p2) (hp2 : p2 ≤ 100)
    (h1 : analyzerPercentile t c p1 = some v1)
    (h2 : analyzerPercentile t c p2 = some v2) : v1 ≤ v2 := by
  unfold analyzerPercentile seriesQuantile at h1 h2
  by_cases hE : (sortedNums (t.colVals c)).isEmpty
  · rw [if_pos hE] at h1
    cases h1
  · rw [if_neg hE] at h1 h2
    injection h1 with h1
    injection h2 with h2
    subst h1
    subst h2
    have hs := sorted_sortedNums (t.colVals c)
    have hn : 1 ≤ (sortedNums (t.colVals c)).length := by
      have hne : sortedNums (t.colVals c) ≠ [] := by
        simpa [List.isEmpty_iff] using hE
      have := List.length_pos.mpr hne
      omega
    have hlen1 : (1 : ℚ) ≤ ((sortedNums (t.colVals c)).length : ℚ) := by
      exact_mod_cast hn
    apply interpolate_mono _ hs
    · apply mul_nonneg
      · positivity
      · linarith
    · apply mul_le_mul_of_nonneg_right
      · have h12 : (p1 : ℚ) ≤ (p2 : ℚ) := by exact_mod_cast hp12.le
        linarith
      · linarith
    · have hq2 : ((p2 : ℚ)) / 100 ≤ 1 := by
        have h100 : (p2 : ℚ) ≤ 100 := by exact_mod_cast hp2
        linarith
      nlinarith

/-- Witness for C7: on the column `[1, 3]`, the 25th percentile is `3/2`
and the 75th percentile is `5/2`. -/
theorem percentile_monotone_witness : ((3 : ℚ) / 2) ≤ ((5 : ℚ) / 2) :=
  percentile_monotone (Table.mk ["a"] [[Value.num 1], [Value.num 3]]) "a"
    25 75 ((3 : ℚ) / 2) ((5 : ℚ) / 2) (by decide) (by decide)
    (by with_unfolding_all decide) (by with_unfolding_all decide)

/-- Mean of a list of observations (`Series.mean` over the non-missing
values). -/
def seriesMean (xs : List ℚ) : ℚ := xs.sum / (xs.length : ℚ)

/-- Sample variance with `ddof=1`, as inside `Series.std()`: `NaN` (here
`none`) when there are fewer than two observations. -/
def sampleVar (xs : List ℚ) : Option ℚ :=
  if xs.length < 2 then none
  else some ((xs.map (fun x => (x - seriesMean xs) ^ 2)).sum /
    ((xs.length : ℚ) - 1))

/-- Two-decimal rendering of a rational, modelling the Python format
`:.2f` on a finite value (up to the float rounding mode, which no claim
depends on). -/
def fmt2 (q : ℚ) : String :=
  (if round (q * 100) < 0 then "-" else "") ++
    toString ((round (q * 100)).natAbs / 100) ++ "." ++
    (if (round (q * 100)).natAbs % 100 < 10 then "0" else "") ++
    toString ((round (q * 100)).natAbs % 100)

/-- The text shown by the `Std Dev` metric:
`f"{df_clean[selected_col_stat].std():.2f}"`.  The square root of the
variance is the numeric library's job and is abstracted as `sqrtApprox`;
when the variance is `NaN` (fewer than two observations) the square root
and the formatted float are `NaN` too, and `f"{nan:.2f}"` is the string
`"nan"`. -/
def stdMetricText (sqrtApprox : ℚ → ℚ) (col : List Value) : String :=
  match sampleVar (numsOf col) with
  | none => "nan"
  | some v => fmt2 (sqrtApprox v)

/-- Claim C8, as the code actually behaves: on a column with fewer than two
observations the `Std Dev` metric shows the string `"nan"` (pandas `std`
with `ddof=1` yields `NaN`, and `:.2f` formats it as `"nan"`), not the
"not available" report the spec requires.  No exception is raised. -/
theorem std_few_obs (sqrtApprox : ℚ → ℚ) (col : List Value)
    (h : (numsOf col).length < 2) :
    stdMetricText sqrtApprox col = "nan" ∧
    stdMetricText sqrtApprox col ≠ "not available" := by
  have e : stdMetricText sqrtApprox col = "nan" := by
    unfold stdMetricText sampleVar
    rw [if_pos h]
  refine ⟨e, ?_⟩
  rw [e]
  decide

/-- Witness for C8 on a one-observation column. -/
theorem std_few_obs_witness :
    stdMetricText id [Value.num 5] = "nan" :=
  (std_few_obs id [Value.num 5] (by decide)).1

/-- The five chart kinds of the Visualization tab. -/
inductive ChartKind
  | scatter
  | line
  | bar
  | histogram
  | box

/-- What the chart block contributes to the page: a rendered chart or the
error notice. -/
inductive PageElement
  | chart (fig : ℕ)
  | errorBox (msg : String)

/-- The `try/except` around the plotly chart construction and rendering:
`pxRender` stands for the external chart builder (which raises on
type-incompatible axes); any exception `e` is caught and reported as
`st.error(f"Could not create chart: {e}. Please ensure ...")`. -/
def chartSection (pxRender : ChartKind → Except String ℕ)
    (kind : ChartKind) : PageElement :=
  match pxRender kind with
  | Except.ok fig => PageElement.chart fig
  | Except.error e =>
      PageElement.errorBox ("Could not create chart: " ++ e ++
        ". Please ensure you selected appropriate columns (e.g., Numeric vs Categorical).")

/-- Claim C9: whatever the external chart builder does, the chart block
never lets a failure escape: a failure with cause `e` becomes an error
notice whose message embeds `e`, and a success becomes the rendered
chart. -/
theorem chartSection_safe (pxRender : ChartKind → Except String ℕ)
    (kind : ChartKind) :
    (∀ e, pxRender kind = Except.error e →
      chartSection pxRender kind =
        PageElement.errorBox ("Could not create chart: " ++ e ++
          ". Please ensure you selected appropriate columns (e.g., Numeric vs Categorical).")) ∧
    (∀ fig, pxRender kind = Except.ok fig →
      chartSection pxRender kind = PageElement.chart fig) := by
  constructor
  · intro e he
    unfold chartSection
    rw [he]
  · intro fig hf
    unfold chartSection
    rw [hf]

/-- Witness for C9: a box plot whose builder raises a dtype incompatibility
is reported with the cause embedded in the notice. -/
theorem chartSection_safe_witness :
    chartSection (fun _ => Except.error ("the dtype of Y is not numeric"))
      ChartKind.box =
      PageElement.errorBox ("Could not create chart: " ++
        "the dtype of Y is not numeric" ++
        ". Please ensure you selected appropriate columns (e.g., Numeric vs Categorical).") :=
  (chartSection_safe (fun _ => Except.error ("the dtype of Y is not numeric"))
    ChartKind.box).1 ("the dtype of Y is not numeric") rfl
